import Mathlib

/-!
Shallow embedding of the stockpile archive library (src/src/stockpile.c,
src/inc/stockpile.h) and proofs about its specification claims.

Modelling conventions:
* A C byte buffer is a `List Nat` whose elements are byte values.
* Machine integers are `Nat`; where the C code stores into a `uint32_t` the
  model applies `% 4294967296` (written `u32`), and a `uint8_t` cast is `% 256`.
* A NULL-able pointer argument is an `Option`; fallible functions return
  `Except StpErrorCode`.  Allocation failure paths (`malloc` returning NULL)
  are not modelled: allocation always succeeds.
* `FILE*` streams are modelled as a byte list plus a read position; `fread`
  returns the number of complete items read, exactly as in C, because several
  call sites in the source compare that item count against a byte count.
* Entry names originate from C strings (`strlen`/`strcmp`/`memcpy` of
  `strlen` many bytes), so names contain no zero byte; list equality then
  coincides with `strcmp == 0` and list length with `strlen`.
-/

namespace Stockpile

/-- Error codes, mirroring `StpErrorCode` in inc/stockpile.h. -/
inductive StpErrorCode where
  | ok
  | invalidArgument
  | outOfMemory
  | outOfRange
  | fileNotFound
  | fileOpen
  | fileRead
  | fileWrite
  | identifierMismatch
  | crcMismatch
  | entryRedefinition
  | entryNotFound
deriving DecidableEq, Repr

/-- In-memory archive entry (`struct StpEntry`).  The C struct stores
`origin` as a pointer into the owning archive's data buffer; the model
stores the corresponding offset (`entries[i].origin - archive->data`).
`entry_name` holds the bytes of the C string stored in the 256-byte
`entry_name` field (zero padding not included). -/
structure StpEntry where
  entry_name : List Nat
  origin : Nat
  size : Nat
deriving DecidableEq, Repr

/-- In-memory archive (`struct StpArchive`): one contiguous data buffer plus
an entry table.  `size`/`entry_count` are the lengths of the lists. -/
structure StpArchive where
  data : List Nat
  entries : List StpEntry
deriving DecidableEq, Repr

/-- Pending builder entry (`struct StpArchiveBuilderEntry`): the (possibly
truncated) name bytes, of length `name_len`, and the owned copy of the data. -/
structure StpArchiveBuilderEntry where
  name : List Nat
  data : List Nat
deriving DecidableEq, Repr

/-- Archive builder (`struct StpArchiveBuilder`).  `entries = none` models a
NULL `entries` pointer; `some l` models an allocated array holding the
`count = l.length` pending entries.  The `crc_data` array of the C struct is
allocated but never read or written by any operation, so it is not modelled. -/
structure StpArchiveBuilder where
  entries : Option (List StpArchiveBuilderEntry)
  capacity : Nat
  enable_crc : Bool
deriving DecidableEq, Repr

/-- Pending entries held by a builder (the C `count` field counts them). -/
def pendingEntries (b : StpArchiveBuilder) : List StpArchiveBuilderEntry :=
  b.entries.getD []

/-- Truncation to a `uint32_t` store. -/
def u32 (n : Nat) : Nat := n % 4294967296

/-- CRC-32 polynomial used by zlib (reflected representation). -/
def crcPoly : Nat := 0xEDB88320

/-- One table entry of the standard zlib CRC-32: eight polynomial-division
steps applied to the index byte. -/
def crcTableEntry (k : Nat) : Nat :=
  (fun e => if e % 2 = 1 then (e / 2) ^^^ crcPoly else e / 2)^[8] k

/-- One byte step of the zlib CRC-32 state update. -/
def crcStep (crc b : Nat) : Nat :=
  crcTableEntry ((crc ^^^ b) % 256) ^^^ (crc / 256)

/-- zlib's `crc32(crc, buf, len)`: complement the running value, fold the
byte steps, complement again.  `crc32 0 []` is the seed `crc32(0, NULL, 0)`. -/
def crc32 (crc : Nat) (data : List Nat) : Nat :=
  (data.foldl crcStep (crc ^^^ 0xFFFFFFFF)) ^^^ 0xFFFFFFFF

/-- `StpCrc32` (lines 188-194): starts from `crc32(0, NULL, 0)` and feeds the
buffer to zlib's `crc32` one byte at a time. -/
def StpCrc32 (data : List Nat) : Nat :=
  data.foldl (fun c b => crc32 c [b]) (crc32 0 [])

/-- `StpCreateArchiveBuilder` (lines 459-484): a positive capacity allocates
the entry array (empty, non-NULL); capacity zero leaves it NULL. -/
def StpCreateArchiveBuilder (capacity : Nat) (generate_crc : Bool) :
    StpArchiveBuilder :=
  { entries := if capacity > 0 then some [] else none
    capacity := capacity
    enable_crc := generate_crc }

/-- `StpBuilderClear` (lines 664-672): only when the `entries` pointer is
non-NULL does it free the buffers and `memset` the whole struct to zero
(entries NULL, count 0, capacity 0, enable_crc false); otherwise it does
nothing at all. -/
def StpBuilderClear (b : StpArchiveBuilder) : StpArchiveBuilder :=
  match b.entries with
  | none => b
  | some _ => { entries := none, capacity := 0, enable_crc := false }

/-- Entry table produced by `StpBuilderFinalize` (lines 696-709): running
offsets in insertion order, each entry's size being its pending data size. -/
def buildEntries (off : Nat) : List StpArchiveBuilderEntry → List StpEntry
  | [] => []
  | e :: rest =>
    { entry_name := e.name, origin := off, size := e.data.length }
      :: buildEntries (off + e.data.length) rest

/-- `StpBuilderFinalize` (lines 673-721): concatenates the pending buffers in
insertion order into one new buffer, builds the entry table with running
offsets, then calls `StpBuilderClear` on the builder.  Returns the archive
together with the post-call builder state. -/
def StpBuilderFinalize (b : StpArchiveBuilder) :
    StpArchive × StpArchiveBuilder :=
  let pending := pendingEntries b
  ({ data := (pending.map (fun e => e.data)).flatten
     entries := buildEntries 0 pending },
   StpBuilderClear b)

/-- Result of an append call: the C return value, the mutated builder, and
the error code set via `StpSetError` (if any). -/
structure AppendResult where
  ok : Bool
  builder : StpArchiveBuilder
  err : Option StpErrorCode
deriving DecidableEq, Repr

/-- `StpBuilderAppendBinary` (lines 573-614).  A NULL or empty name and a
NULL buffer fail with `STP_ERROR_INVALID_ARGUMENT` and change nothing.  A
zero `buffer_size` sets `STP_ERROR_OUT_OF_RANGE` but the code does NOT
return there: it falls through, truncates the name to at most 255 bytes,
grows the array if `count >= capacity` (via `StpBuilderReserve(builder,
count + 5)`), appends the entry and returns true.  The `builder == NULL`
guard is not modelled (the model builder is not nullable). -/
def StpBuilderAppendBinary (b : StpArchiveBuilder)
    (entry_name : Option (List Nat)) (buffer : Option (List Nat)) :
    AppendResult :=
  match entry_name with
  | none => { ok := false, builder := b, err := some .invalidArgument }
  | some name =>
    if name.length = 0 then
      { ok := false, builder := b, err := some .invalidArgument }
    else
      match buffer with
      | none => { ok := false, builder := b, err := some .invalidArgument }
      | some buf =>
        let err := if buf.length = 0 then some StpErrorCode.outOfRange else none
        let name_len := if name.length > 255 then 255 else name.length
        let entry : StpArchiveBuilderEntry :=
          { name := name.take name_len, data := buf }
        let count := (pendingEntries b).length
        let capacity := if count ≥ b.capacity then count + 5 else b.capacity
        { ok := true
          builder := { entries := some (pendingEntries b ++ [entry])
                       capacity := capacity
                       enable_crc := b.enable_crc }
          err := err }

/-- `StpArchiveOpenEntry` (lines 364-383): empty name is rejected, then a
linear scan returns the first entry whose name compares equal
(`strcmp == 0`); otherwise `STP_ERROR_ENTRY_NOT_FOUND`. -/
def StpArchiveOpenEntry (archive : StpArchive) (name : List Nat) :
    Except StpErrorCode StpEntry :=
  if name.length = 0 then .error .invalidArgument
  else
    match archive.entries.find? (fun e => e.entry_name == name) with
    | some e => .ok e
    | none => .error .entryNotFound

/-- `StpArchiveHasEntry` (lines 384-393): true iff the name is non-empty and
some entry's name compares equal. -/
def StpArchiveHasEntry (archive : StpArchive) (name : List Nat) : Bool :=
  name.length != 0 && archive.entries.any (fun e => e.entry_name == name)

/-- The 256-byte `entry_name` field of `struct StpEntry` as laid out in
memory: the name bytes followed by zero padding (the field is zeroed before
the name is copied in). -/
def entryNameField (entry : StpEntry) : List Nat :=
  entry.entry_name ++ List.replicate (256 - entry.entry_name.length) 0

/-- `StpReadEntry` (lines 394-411).  A zero `buffer_max` sets
`STP_ERROR_OUT_OF_RANGE` and returns -1 (modelled as `.error`).  Otherwise
it copies `min(entry->size, buffer_max)` bytes — but the `memcpy` at line
409 reads from `entry->entry_name`, the NAME field, not from
`entry->origin`.  The NULL-pointer guards for `entry` and `buffer_out` are
not modelled. -/
def StpReadEntry (entry : StpEntry) (buffer_max : Nat) :
    Except StpErrorCode (List Nat) :=
  if buffer_max = 0 then .error .outOfRange
  else
    let size := if entry.size > buffer_max then buffer_max else entry.size
    .ok ((entryNameField entry).take size)

/-- Little-endian byte encoding of a 32-bit value. -/
def le32 (n : Nat) : List Nat :=
  [n % 256, n / 256 % 256, n / 65536 % 256, n / 16777216 % 256]

/-- Little-endian 32-bit decode at an offset of a byte list. -/
def le32get (bytes : List Nat) (off : Nat) : Nat :=
  bytes.getD off 0 + 256 * bytes.getD (off + 1) 0
    + 65536 * bytes.getD (off + 2) 0 + 16777216 * bytes.getD (off + 3) 0

/-- `sizeof(StpArchiveHeader)`: 4 magic bytes, 4 version/flag bytes and five
32-bit fields. -/
def headerSize : Nat := 28

/-- Wire header (`struct StpArchiveHeader`). -/
structure StpArchiveHeader where
  magic : List Nat
  version_major : Nat
  version_minor : Nat
  compressed : Bool
  crc_enabled : Bool
  raw_size : Nat
  uncompressed_size : Nat
  data_origin : Nat
  crc_origin : Nat
  entry_count : Nat
deriving DecidableEq, Repr

/-- Byte layout of the header as written by `fwrite(&header, sizeof(header),
1, file)` on a little-endian target: magic, versions, reserved zero byte,
flag byte (bit0 compressed, bit1 crc_enabled), then five little-endian
32-bit fields. -/
def encodeHeader (h : StpArchiveHeader) : List Nat :=
  h.magic
    ++ [h.version_major, h.version_minor, 0,
        (if h.compressed then 1 else 0) + (if h.crc_enabled then 2 else 0)]
    ++ le32 h.raw_size ++ le32 h.uncompressed_size
    ++ le32 h.data_origin ++ le32 h.crc_origin ++ le32 h.entry_count

/-- Header decode from the bytes `fread` placed in the struct. -/
def decodeHeader (bytes : List Nat) : StpArchiveHeader :=
  { magic := bytes.take 4
    version_major := bytes.getD 4 0
    version_minor := bytes.getD 5 0
    compressed := bytes.getD 7 0 % 2 == 1
    crc_enabled := bytes.getD 7 0 / 2 % 2 == 1
    raw_size := le32get bytes 8
    uncompressed_size := le32get bytes 12
    data_origin := le32get bytes 16
    crc_origin := le32get bytes 20
    entry_count := le32get bytes 24 }

/-- The byte values of the literal "STPA". -/
def magicSTPA : List Nat := [83, 84, 80, 65]

/-- The byte values of the literal "APTS". -/
def magicAPTS : List Nat := [65, 80, 84, 83]

/-- The magic validation of `StpOpenArchiveFromFile` line 227, exactly as
written: `memcmp(header.magic, "STPA", 4) != 0 || memcmp(header.magic,
"APTS", 4) != 0`. -/
def magicMismatch (magic : List Nat) : Bool :=
  magic != magicSTPA || magic != magicAPTS

/-- The header built by `StpArchiveWriteToFileF_CRC` (lines 120-148), given
the size `data_size` of the data section actually written.  Note that
`raw_size` is assigned `archive->size` at line 126, BEFORE compression runs,
and is never updated afterwards, while `crc_origin` is assigned
`data_origin + data_size` at line 148, AFTER compression;
`uncompressed_size` is left zero by the designated initializer. -/
def mkWriteHeader (archive : StpArchive) (compressed crcEnabled : Bool)
    (data_size : Nat) : StpArchiveHeader :=
  let data_origin :=
    headerSize + ((archive.entries.map
      (fun e => e.entry_name.length + 1 + 8)).sum)
  { magic := magicSTPA
    version_major := 1
    version_minor := 0
    compressed := compressed
    crc_enabled := crcEnabled
    raw_size := u32 archive.data.length
    uncompressed_size := 0
    data_origin := u32 data_origin
    crc_origin := u32 (u32 data_origin + data_size)
    entry_count := u32 archive.entries.length }

/-- One wire entry record as written at lines 152-161: `name_len` (the
`uint8_t` cast of `strlen`), the name bytes, then origin and size as
little-endian 32-bit values (`origin` is the pointer difference
`entries[i].origin - archive->data`, i.e. the model's offset). -/
def entryRecordBytes (e : StpEntry) : List Nat :=
  let name_len := e.entry_name.length % 256
  name_len :: (e.entry_name.take name_len
    ++ le32 (u32 e.origin) ++ le32 (u32 e.size))

/-- `StpArchiveWriteToFileF_CRC` (lines 110-171) as the byte stream it
writes: header, entry table, data section (the compressor's output when
`compressed`), then the checksum table when `crc_data` is non-NULL.  The
zlib compressor is abstracted as the function argument `compressFn`. -/
def StpArchiveWriteToFileF_CRC (compressFn : List Nat → List Nat)
    (archive : StpArchive) (compressed : Bool)
    (crc_data : Option (List Nat)) : List Nat :=
  let data := if compressed then compressFn archive.data else archive.data
  let header := mkWriteHeader archive compressed crc_data.isSome data.length
  encodeHeader header
    ++ (archive.entries.map entryRecordBytes).flatten
    ++ data
    ++ (match crc_data with
        | some crcs => (crcs.map (fun c => le32 (u32 c))).flatten
        | none => [])

/-- `StpArchiveWriteToFileF` (lines 353-362): when `enable_crc`, computes
the per-entry checksums with `StpCrc32` over each entry's bytes in the data
buffer, then delegates. -/
def StpArchiveWriteToFileF (compressFn : List Nat → List Nat)
    (archive : StpArchive) (compressed enable_crc : Bool) : List Nat :=
  let crc_data :=
    if enable_crc then
      some (archive.entries.map
        (fun e => StpCrc32 ((archive.data.drop e.origin).take e.size)))
    else none
  StpArchiveWriteToFileF_CRC compressFn archive compressed crc_data

/-- `StpArchiveWriteToFile` (lines 337-352): opens the named file for
writing (`createOk` models `fopen(filename, "wb")` succeeding) and delegates
to `StpArchiveWriteToFileF`. -/
def StpArchiveWriteToFile (compressFn : List Nat → List Nat)
    (archive : StpArchive) (createOk : Bool)
    (compressed enable_crc : Bool) : Except StpErrorCode (List Nat) :=
  if createOk then
    .ok (StpArchiveWriteToFileF compressFn archive compressed enable_crc)
  else .error .fileOpen

/-- A `FILE*` opened for reading: the file's bytes and the current position. -/
structure FileStream where
  data : List Nat
  pos : Nat
deriving DecidableEq, Repr

/-- C `fread(ptr, size, count, file)`: returns the number of COMPLETE items
read, the bytes transferred, and the advanced stream. -/
def fread (s : FileStream) (size count : Nat) : Nat × List Nat × FileStream :=
  let avail := s.data.length - s.pos
  let consumed := min (size * count) avail
  (min count (avail / size),
   (s.data.drop s.pos).take consumed,
   { s with pos := s.pos + consumed })

/-- Raw wire entry record (`struct StpEntryRaw`). -/
structure StpEntryRaw where
  entry_name : List Nat
  origin : Nat
  size : Nat
  name_len : Nat
deriving DecidableEq, Repr

/-- One iteration of the entry-reading loop of `StpOpenArchiveFromFile`
(lines 238-256), with every `fread` return value compared exactly as in the
source: the name-length and name reads compare item counts against counts of
1-byte items (correct), while the origin and size reads compare the item
count (at most 1) against `sizeof(uint32_t)` = 4. -/
def readEntryRaw (s : FileStream) :
    Except StpErrorCode (StpEntryRaw × FileStream) :=
  let (items1, b1, s1) := fread s 1 1
  if items1 < 1 then .error .fileRead
  else
    let name_len := b1.getD 0 0
    if name_len = 0 then .error .outOfRange
    else
      let (items2, nameBytes, s2) := fread s1 1 name_len
      if items2 < name_len then .error .fileRead
      else
        let (items3, originBytes, s3) := fread s2 4 1
        if items3 < 4 then .error .fileRead
        else
          let (items4, sizeBytes, s4) := fread s3 4 1
          if items4 < 4 then .error .fileRead
          else
            .ok ({ entry_name := nameBytes
                   origin := le32get originBytes 0
                   size := le32get sizeBytes 0
                   name_len := name_len }, s4)

/-- The entry-reading loop, `entry_count` iterations. -/
def readEntries : Nat → FileStream →
    Except StpErrorCode (List StpEntryRaw × FileStream)
  | 0, s => .ok ([], s)
  | n + 1, s =>
    match readEntryRaw s with
    | .error e => .error e
    | .ok (e, s1) =>
      match readEntries n s1 with
      | .error err => .error err
      | .ok (rest, s2) => .ok (e :: rest, s2)

/-- `StpOpenArchiveFromFile` (lines 212-328).  The zlib decompressor is
abstracted as `uncompressFn` (taking the header's `uncompressed_size` and
the raw bytes).  Every `fread` result comparison is kept exactly as in the
source; in particular the header read at line 223 compares the item count
(at most 1) against `sizeof(header)` = 28, and the checksum-table read at
line 305 compares the item count against `entry_count * sizeof(uint32_t)`.
The NULL `file` guard is not modelled. -/
def StpOpenArchiveFromFile (uncompressFn : Nat → List Nat → List Nat)
    (stream : List Nat) : Except StpErrorCode StpArchive :=
  let s0 : FileStream := { data := stream, pos := 0 }
  let (items, hbytes, s1) := fread s0 28 1
  if items < 28 then .error .fileRead
  else
    let header := decodeHeader hbytes
    if magicMismatch header.magic then .error .identifierMismatch
    else
      match readEntries header.entry_count s1 with
      | .error e => .error e
      | .ok (entries, s2) =>
        let s3 : FileStream := { s2 with pos := header.data_origin }
        let (got, raw_data, _) := fread s3 1 header.raw_size
        if got < header.raw_size then .error .fileRead
        else
          let adata :=
            if header.compressed then
              uncompressFn header.uncompressed_size raw_data
            else raw_data
          let aentries := entries.map (fun e =>
            { entry_name := e.entry_name.take e.name_len
              origin := e.origin
              size := e.size : StpEntry })
          let result : StpArchive := { data := adata, entries := aentries }
          if header.crc_enabled then
            let s4 : FileStream := { data := stream, pos := header.crc_origin }
            let (citems, crcBytes, _) := fread s4 4 header.entry_count
            if citems < header.entry_count * 4 then .error .fileRead
            else
              let crcs := (List.range header.entry_count).map
                (fun i => le32get crcBytes (4 * i))
              if (List.range header.entry_count).all (fun i =>
                  let e := aentries.getD i { entry_name := [], origin := 0, size := 0 }
                  StpCrc32 ((adata.drop e.origin).take e.size) == crcs.getD i 0)
              then .ok result
              else .error .crcMismatch
          else .ok result

/-- `StpOpenArchive` (lines 196-211).  `fileExists` models `stat(filename,
&st) == 0`.  When the stat call SUCCEEDS (the file exists) the code reports
`STP_ERROR_FILE_NOT_FOUND` ("File doesn't exists!") and returns NULL; when
the file does not exist it reaches `fopen(filename, "rb")`, which fails on a
missing file, so `STP_ERROR_FILE_OPEN` is reported.  The stream form is
therefore never reached. -/
def StpOpenArchive (uncompressFn : Nat → List Nat → List Nat)
    (fileExists : Bool) (content : List Nat) :
    Except StpErrorCode StpArchive :=
  if fileExists then .error .fileNotFound
  else .error .fileOpen

/-- `StpBuilderFinalizeToFileF` (lines 734-745): saves `enable_crc` before
finalizing (finalize clears the builder, wiping the flag), finalizes, then
writes with the saved flag.  Returns the written bytes and the post-call
builder state. -/
def StpBuilderFinalizeToFileF (compressFn : List Nat → List Nat)
    (b : StpArchiveBuilder) (compressed : Bool) :
    List Nat × StpArchiveBuilder :=
  let enable_crc := b.enable_crc
  let (archive, b1) := StpBuilderFinalize b
  (StpArchiveWriteToFileF compressFn archive compressed enable_crc, b1)

/-! ## Helper lemmas -/

/-- XOR-ing twice with the same mask is the identity. -/
theorem xor_xor_cancel (a m : Nat) : (a ^^^ m) ^^^ m = a := by
  rw [Nat.xor_assoc, Nat.xor_self, Nat.xor_zero]

/-- Folding single-byte `crc32` calls from any running value equals one
`crc32` call on the whole buffer. -/
theorem crc32_foldl_single (l : List Nat) :
    ∀ c, l.foldl (fun c b => crc32 c [b]) c = crc32 c l := by
  induction l with
  | nil => intro c; simp [crc32, xor_xor_cancel]
  | cons b rest ih =>
    intro c
    simp only [List.foldl_cons]
    rw [ih]
    simp [crc32, xor_xor_cancel]

/-- `StpOpenArchiveFromFile` fails with `STP_ERROR_FILE_READ` on EVERY input
stream: the check at line 223 compares `fread`'s item count (at most 1)
against `sizeof(header)` = 28. -/
theorem stpOpenArchiveFromFile_always_fileRead
    (uncompressFn : Nat → List Nat → List Nat) (stream : List Nat) :
    StpOpenArchiveFromFile uncompressFn stream = .error .fileRead := by
  have h : min 1 ((stream.length - 0) / 28) < 28 :=
    Nat.lt_of_le_of_lt (Nat.min_le_left _ _) (by norm_num)
  simp [StpOpenArchiveFromFile, fread, h]

/-- The concrete scenario archive of the spec: entries "a.txt" -> "hello"
and "b.bin" -> [0x00, 0x01, 0x02], as produced by finalizing a builder. -/
def sampleArchive : StpArchive :=
  { data := [104, 101, 108, 108, 111, 0, 1, 2]
    entries := [{ entry_name := [97, 46, 116, 120, 116], origin := 0, size := 5 },
                { entry_name := [98, 46, 98, 105, 110], origin := 5, size := 3 }] }

/-! ## Claim theorems -/

/-- C10: `StpCrc32`, which feeds the bytes to zlib's `crc32` one at a time
starting from `crc32(0, NULL, 0)`, computes the same checksum as one
whole-buffer `crc32` call. -/
theorem c10_stpCrc32_eq_whole_buffer_crc32 (data : List Nat) :
    StpCrc32 data = crc32 0 data := by
  unfold StpCrc32
  rw [crc32_foldl_single]
  have h0 : crc32 0 [] = 0 := by simp [crc32, xor_xor_cancel]
  rw [h0]

/-- C2 fails on the code: the magic validation at line 227 is the
disjunction `memcmp(magic,"STPA",4) != 0 || memcmp(magic,"APTS",4) != 0`,
which holds for EVERY magic value — in particular the correct literal
"STPA" is itself rejected, contradicting "parse fails with the
identifier-mismatch error if and only if the magic does not equal STPA". -/
theorem c2_magic_check_rejects_everything :
    magicMismatch magicSTPA = true ∧ ∀ magic : List Nat, magicMismatch magic = true := by
  refine ⟨by decide, ?_⟩
  intro m
  rcases eq_or_ne m magicSTPA with h | h
  · subst h; decide
  · simp [magicMismatch, h]

/-- C1 fails on the code: for the spec's own concrete archive and all four
combinations of the `compressed` and `crc` flags (and any compressor and
decompressor), parsing the serialized stream does not yield an archive at
all — it fails with `STP_ERROR_FILE_READ`, because the header-read check of
`StpOpenArchiveFromFile` compares `fread`'s item count (at most 1) against
`sizeof(header)` = 28.  No round trip ever succeeds. -/
theorem c1_roundtrip_always_fails
    (compressed enable_crc : Bool)
    (compressFn : List Nat → List Nat)
    (uncompressFn : Nat → List Nat → List Nat) :
    StpOpenArchiveFromFile uncompressFn
      (StpArchiveWriteToFileF compressFn sampleArchive compressed enable_crc)
      = .error .fileRead :=
  stpOpenArchiveFromFile_always_fileRead uncompressFn _

/-- C8 fails on the code: for an EXISTING file (`stat` succeeding), the path
form `StpOpenArchive` reports `STP_ERROR_FILE_NOT_FOUND` ("File doesn't
exists!") because the `stat` check at line 198 is inverted, and so never
delegates to the stream form; the stream form applied to the same content
returns a different result (`STP_ERROR_FILE_READ`) for every stream. -/
theorem c8_path_form_does_not_delegate
    (uncompressFn : Nat → List Nat → List Nat) (content : List Nat) :
    StpOpenArchive uncompressFn true content = .error .fileNotFound
    ∧ StpOpenArchiveFromFile uncompressFn content = .error .fileRead
    ∧ StpOpenArchive uncompressFn true content
        ≠ StpOpenArchiveFromFile uncompressFn content := by
  refine ⟨rfl, stpOpenArchiveFromFile_always_fileRead uncompressFn content, ?_⟩
  rw [stpOpenArchiveFromFile_always_fileRead uncompressFn content]
  intro h
  simp [StpOpenArchive] at h

/-- Concrete archive for C3: data buffer [7, 8, 9], one entry named "a". -/
def c3Archive : StpArchive :=
  { data := [7, 8, 9]
    entries := [{ entry_name := [97], origin := 0, size := 3 }] }

/-- The single entry of `c3Archive`. -/
def c3Entry : StpEntry := { entry_name := [97], origin := 0, size := 3 }

/-- C3 fails on the code: `StpReadEntry` on the entry named "a" of an
archive whose data buffer is [7, 8, 9] returns the bytes of the NAME field
([97, 0, 0], i.e. "a" plus zero padding) instead of the payload [7, 8, 9]:
the `memcpy` at line 409 reads from `entry->entry_name`.  (The zero-capacity
guard also sets `STP_ERROR_OUT_OF_RANGE`, not invalid-argument.) -/
theorem c3_read_copies_name_field_not_payload :
    StpReadEntry c3Entry 3 = .ok [97, 0, 0]
    ∧ (c3Archive.data.drop c3Entry.origin).take c3Entry.size = [7, 8, 9]
    ∧ ([97, 0, 0] : List Nat) ≠ [7, 8, 9]
    ∧ StpReadEntry c3Entry 0 = .error .outOfRange := by
  refine ⟨rfl, rfl, by decide, rfl⟩

/-- The toy compressor used to exhibit C5's failure: its output length (2)
differs from its input length. -/
def c5CompressFn : List Nat → List Nat := fun _ => [1, 2]

/-- C5 fails on the code for the `raw_size` equation: serializing
`sampleArchive` with `compressed = true` (and the checksum table present)
stores a data section of length 2 (the compressor's output), yet the header
records `raw_size = 8` — `archive->size`, assigned at line 126 BEFORE
compression and never updated.  The `data_origin` equation and
`crc_origin = data_origin + stored-length` hold, but consequently
`crc_origin ≠ data_origin + raw_size` as the claim states it. -/
theorem c5_raw_size_not_stored_length :
    (mkWriteHeader sampleArchive true true
        ((c5CompressFn sampleArchive.data).length)).data_origin
      = headerSize + ((1 + 5 + 8) + ((1 + 5 + 8) + 0))
    ∧ (c5CompressFn sampleArchive.data).length = 2
    ∧ (mkWriteHeader sampleArchive true true
        ((c5CompressFn sampleArchive.data).length)).crc_origin
      = (mkWriteHeader sampleArchive true true
        ((c5CompressFn sampleArchive.data).length)).data_origin + 2
    ∧ (mkWriteHeader sampleArchive true true
        ((c5CompressFn sampleArchive.data).length)).raw_size = 8
    ∧ (mkWriteHeader sampleArchive true true
        ((c5CompressFn sampleArchive.data).length)).raw_size
      ≠ (c5CompressFn sampleArchive.data).length
    ∧ (mkWriteHeader sampleArchive true true
        ((c5CompressFn sampleArchive.data).length)).crc_origin
      ≠ (mkWriteHeader sampleArchive true true
        ((c5CompressFn sampleArchive.data).length)).data_origin
        + (mkWriteHeader sampleArchive true true
            ((c5CompressFn sampleArchive.data).length)).raw_size := by
  refine ⟨rfl, rfl, rfl, rfl, by decide, by decide⟩

set_option maxRecDepth 4000 in
/-- C7 fails on the code for the empty-buffer case: appending the name "a"
with a non-NULL but EMPTY buffer sets `STP_ERROR_OUT_OF_RANGE` yet — the
`return` being missing at line 588 — still appends a zero-length pending
entry and returns true.  The empty-name case does fail with
invalid-argument and changes nothing, and an oversized name is truncated to
its first 255 bytes, as the claim says. -/
theorem c7_empty_buffer_append_not_rejected :
    (StpBuilderAppendBinary (StpCreateArchiveBuilder 0 false)
        (some [97]) (some [])).ok = true
    ∧ (StpBuilderAppendBinary (StpCreateArchiveBuilder 0 false)
        (some [97]) (some [])).err = some .outOfRange
    ∧ (StpBuilderAppendBinary (StpCreateArchiveBuilder 0 false)
        (some [97]) (some [])).builder.entries
      = some [{ name := [97], data := [] }]
    ∧ (StpBuilderAppendBinary (StpCreateArchiveBuilder 0 false)
        (some []) (some [1]))
      = { ok := false, builder := StpCreateArchiveBuilder 0 false
          err := some .invalidArgument }
    ∧ (StpBuilderAppendBinary (StpCreateArchiveBuilder 0 false)
        (some (List.replicate 300 97)) (some [1])).builder.entries
      = some [{ name := List.replicate 255 97, data := [1] }] := by
  refine ⟨rfl, rfl, rfl, rfl, ?_⟩
  have ht : (List.replicate 300 (97 : Nat)).take 255 = List.replicate 255 97 := by
    rw [List.take_replicate]
    norm_num
  show some [{ name := (List.replicate 300 (97 : Nat)).take 255,
               data := ([1] : List Nat) : StpArchiveBuilderEntry }]
    = some [{ name := List.replicate 255 97, data := [1] }]
  rw [ht]

/-- Counterexample to C9 as stated: on a builder whose entry array is NULL
(created with capacity 0) and `generate_crc = true`, `StpBuilderClear` does
nothing at all — in particular the `generate_crc` flag is NOT reset. -/
theorem c9_counterexample_clear_noop :
    StpBuilderClear (StpCreateArchiveBuilder 0 true)
      = StpCreateArchiveBuilder 0 true
    ∧ (StpBuilderClear (StpCreateArchiveBuilder 0 true)).enable_crc = true :=
  ⟨rfl, rfl⟩

/-- C9 amended: when the builder's entry array is allocated (non-NULL),
`StpBuilderClear` zeroes the ENTIRE builder state — entries NULL, capacity
0, `generate_crc` false — so a finalized builder no longer has CRC
generation enabled, which is why `StpBuilderFinalizeToFileF` saves the flag
before finalizing and writes with the saved flag. -/
theorem c9_clear_zeroes_whole_builder (b : StpArchiveBuilder)
    (l : List StpArchiveBuilderEntry) (h : b.entries = some l) :
    StpBuilderClear b = { entries := none, capacity := 0, enable_crc := false }
    ∧ (StpBuilderFinalize b).2.enable_crc = false
    ∧ ∀ (compressFn : List Nat → List Nat) (compressed : Bool),
        (StpBuilderFinalizeToFileF compressFn b compressed).1
          = StpArchiveWriteToFileF compressFn (StpBuilderFinalize b).1
              compressed b.enable_crc := by
  refine ⟨?_, ?_, fun compressFn compressed => rfl⟩
  · simp [StpBuilderClear, h]
  · simp [StpBuilderFinalize, StpBuilderClear, h]

/-- Witness for C9's amended theorem at a concrete builder. -/
theorem c9_witness :
    StpBuilderClear
        { entries := some [{ name := [97], data := [1] }]
          capacity := 5, enable_crc := true }
      = { entries := none, capacity := 0, enable_crc := false }
    ∧ (StpBuilderFinalize
        { entries := some [{ name := [97], data := [1] }]
          capacity := 5, enable_crc := true }).2.enable_crc = false :=
  ⟨(c9_clear_zeroes_whole_builder _ [{ name := [97], data := [1] }] rfl).1,
   (c9_clear_zeroes_whole_builder _ [{ name := [97], data := [1] }] rfl).2.1⟩

/-- Default in-memory entry, used as the `getD` fallback in statements. -/
def defaultEntry : StpEntry := { entry_name := [], origin := 0, size := 0 }

/-- Default pending entry, used as the `getD` fallback in statements. -/
def defaultPending : StpArchiveBuilderEntry := { name := [], data := [] }

/-- Sum of the pending entries' data sizes. -/
def sizeSum (l : List StpArchiveBuilderEntry) : Nat :=
  (l.map (fun e => e.data.length)).sum

theorem buildEntries_length (l : List StpArchiveBuilderEntry) :
    ∀ off, (buildEntries off l).length = l.length := by
  induction l with
  | nil => intro off; rfl
  | cons e rest ih => intro off; simp [buildEntries, ih]

theorem buildEntries_getD (l : List StpArchiveBuilderEntry) :
    ∀ off i, i < l.length →
      (buildEntries off l).getD i defaultEntry
        = { entry_name := (l.getD i defaultPending).name
            origin := off + sizeSum (l.take i)
            size := (l.getD i defaultPending).data.length } := by
  induction l with
  | nil => intro off i h; exact absurd h (by simp)
  | cons e rest ih =>
    intro off i h
    cases i with
    | zero => simp [buildEntries, sizeSum]
    | succ i =>
      have h2 : i < rest.length := by simpa using h
      simp only [buildEntries, List.getD_cons_succ, List.take_succ_cons]
      rw [ih (off + e.data.length) i h2]
      simp [sizeSum, Nat.add_assoc]

theorem flatten_drop_take (l : List StpArchiveBuilderEntry) :
    ∀ i, i < l.length →
      (((l.map (fun e => e.data)).flatten.drop (sizeSum (l.take i))).take
          (l.getD i defaultPending).data.length)
        = (l.getD i defaultPending).data := by
  induction l with
  | nil => intro i h; exact absurd h (by simp)
  | cons e rest ih =>
    intro i h
    cases i with
    | zero =>
      simp only [List.take_zero, sizeSum, List.map_nil, List.sum_nil,
        List.drop_zero, List.getD_cons_zero, List.map_cons, List.flatten_cons]
      exact List.take_left _ _
    | succ i =>
      have h2 : i < rest.length := by simpa using h
      simp only [List.map_cons, List.flatten_cons, List.take_succ_cons,
        List.getD_cons_succ]
      have hs : sizeSum (e :: rest.take i)
          = e.data.length + sizeSum (rest.take i) := by
        simp [sizeSum]
      rw [hs, List.drop_append]
      exact ih i h2

/-- C4: `StpBuilderFinalize` produces an archive whose data buffer is the
concatenation of the pending entries' bytes in insertion order, whose `i`-th
entry carries the `i`-th pending name, an offset equal to the sum of the
sizes of the pending entries before it, and its own data size as length —
and afterwards the builder holds zero pending entries. -/
theorem c4_finalize_concatenates_with_running_offsets
    (b : StpArchiveBuilder) :
    (StpBuilderFinalize b).1.data
      = ((pendingEntries b).map (fun e => e.data)).flatten
    ∧ (StpBuilderFinalize b).1.entries.length = (pendingEntries b).length
    ∧ (∀ i, i < (pendingEntries b).length →
        (StpBuilderFinalize b).1.entries.getD i defaultEntry
          = { entry_name := ((pendingEntries b).getD i defaultPending).name
              origin := sizeSum ((pendingEntries b).take i)
              size := ((pendingEntries b).getD i defaultPending).data.length })
    ∧ pendingEntries (StpBuilderFinalize b).2 = [] := by
  refine ⟨rfl, buildEntries_length _ 0, fun i h => ?_, ?_⟩
  · have := buildEntries_getD (pendingEntries b) 0 i h
    simpa using this
  · show pendingEntries (StpBuilderClear b) = []
    unfold StpBuilderClear pendingEntries
    match hb : b.entries with
    | none =>
      simp only []
      rw [hb]
      rfl
    | some l =>
      rfl

/-- Witness for C4 at a concrete two-entry builder. -/
theorem c4_witness :
    (StpBuilderFinalize { entries := some [{ name := [97], data := [1, 2] },
                                           { name := [98], data := [3] }]
                          capacity := 2, enable_crc := false }).1.entries.getD
        1 defaultEntry
      = { entry_name := [98], origin := 2, size := 1 } := by
  have h := (c4_finalize_concatenates_with_running_offsets
    { entries := some [{ name := [97], data := [1, 2] },
                       { name := [98], data := [3] }]
      capacity := 2, enable_crc := false }).2.2.1 1 (by decide)
  rw [h]
  rfl

theorem find?_eq_getD_of_first {α : Type} (p : α → Bool) (d : α)
    (l : List α) :
    ∀ i, i < l.length → p (l.getD i d) = true →
      (∀ j, j < i → p (l.getD j d) = false) →
      l.find? p = some (l.getD i d) := by
  induction l with
  | nil => intro i h; exact absurd h (by simp)
  | cons a t ih =>
    intro i h hp hmin
    cases i with
    | zero =>
      simp only [List.getD_cons_zero] at hp ⊢
      exact List.find?_cons_of_pos t hp
    | succ i =>
      have ha : p a = false := by
        have := hmin 0 (Nat.succ_pos i)
        simpa using this
      rw [List.find?_cons_of_neg t (by simp [ha]), List.getD_cons_succ]
      exact ih i (by simpa using h) (by simpa using hp)
        (fun j hj => by
          have := hmin (j + 1) (by omega)
          simpa using this)

theorem buildEntries_name_mem (l : List StpArchiveBuilderEntry) :
    ∀ off x, x ∈ buildEntries off l → ∃ p, p ∈ l ∧ x.entry_name = p.name := by
  induction l with
  | nil => intro off x hx; simp [buildEntries] at hx
  | cons e rest ih =>
    intro off x hx
    simp only [buildEntries, List.mem_cons] at hx
    rcases hx with h | h
    · exact ⟨e, List.mem_cons_self e rest, by rw [h]⟩
    · obtain ⟨p, hp, he⟩ := ih _ x h
      exact ⟨p, List.mem_cons_of_mem e hp, he⟩

/-- C6: on a freshly finalized archive, `StpArchiveOpenEntry` with a present
(non-empty) name returns the entry of the FIRST pending entry carrying that
name, and that entry designates in the archive's data buffer exactly the
bytes that were appended under the name; for a name carried by no pending
entry, open fails with `STP_ERROR_ENTRY_NOT_FOUND` and `StpArchiveHasEntry`
returns false. -/
theorem c6_open_returns_appended_bytes
    (l : List StpArchiveBuilderEntry) (cap : Nat) (crc : Bool)
    (n : List Nat) (hn : n ≠ []) :
    (∀ i, i < l.length → (l.getD i defaultPending).name = n →
      (∀ j, j < i → (l.getD j defaultPending).name ≠ n) →
      StpArchiveOpenEntry
          (StpBuilderFinalize
            { entries := some l, capacity := cap, enable_crc := crc }).1 n
        = .ok { entry_name := n, origin := sizeSum (l.take i)
                size := (l.getD i defaultPending).data.length }
      ∧ (((StpBuilderFinalize
            { entries := some l, capacity := cap, enable_crc := crc }).1.data.drop
              (sizeSum (l.take i))).take
            (l.getD i defaultPending).data.length)
          = (l.getD i defaultPending).data)
    ∧ ((∀ p, p ∈ l → p.name ≠ n) →
      StpArchiveOpenEntry
          (StpBuilderFinalize
            { entries := some l, capacity := cap, enable_crc := crc }).1 n
        = .error .entryNotFound
      ∧ StpArchiveHasEntry
          (StpBuilderFinalize
            { entries := some l, capacity := cap, enable_crc := crc }).1 n
        = false) := by
  have hpend : pendingEntries
      { entries := some l, capacity := cap, enable_crc := crc } = l := rfl
  have hlen : ¬ n.length = 0 := fun h => hn (List.length_eq_zero.mp h)
  constructor
  · intro i hi hname hmin
    constructor
    · unfold StpArchiveOpenEntry
      rw [if_neg hlen]
      have hfind : (buildEntries 0 l).find? (fun e => e.entry_name == n)
          = some ((buildEntries 0 l).getD i defaultEntry) := by
        apply find?_eq_getD_of_first
        · rw [buildEntries_length l 0]; exact hi
        · rw [buildEntries_getD l 0 i hi]
          simpa using hname
        · intro j hj
          have hjl : j < l.length := Nat.lt_trans hj hi
          rw [buildEntries_getD l 0 j hjl]
          simpa using hmin j hj
      show (match (buildEntries 0 l).find? (fun e => e.entry_name == n) with
            | some e => Except.ok e
            | none => Except.error StpErrorCode.entryNotFound)
          = Except.ok { entry_name := n, origin := sizeSum (l.take i)
                        size := (l.getD i defaultPending).data.length }
      rw [hfind, buildEntries_getD l 0 i hi, hname]
      simp
    · show (((l.map (fun e => e.data)).flatten.drop (sizeSum (l.take i))).take
          (l.getD i defaultPending).data.length) = (l.getD i defaultPending).data
      exact flatten_drop_take l i hi
  · intro habs
    have hnone : ∀ x, x ∈ buildEntries 0 l → ¬ (x.entry_name == n) = true := by
      intro x hx hbeq
      obtain ⟨p, hp, he⟩ := buildEntries_name_mem l 0 x hx
      exact habs p hp (he ▸ beq_iff_eq.mp hbeq)
    constructor
    · unfold StpArchiveOpenEntry
      rw [if_neg hlen]
      have hfind : (buildEntries 0 l).find? (fun e => e.entry_name == n)
          = none := List.find?_eq_none.mpr hnone
      show (match (buildEntries 0 l).find? (fun e => e.entry_name == n) with
            | some e => Except.ok e
            | none => Except.error StpErrorCode.entryNotFound)
          = Except.error StpErrorCode.entryNotFound
      rw [hfind]
    · unfold StpArchiveHasEntry
      have hany : (buildEntries 0 l).any (fun e => e.entry_name == n)
          = false := List.any_eq_false.mpr hnone
      show (n.length != 0
          && (buildEntries 0 l).any (fun e => e.entry_name == n)) = false
      rw [hany, Bool.and_false]

/-- Witness for C6 at a concrete two-entry builder: looking up "b" ([98])
returns the second entry, whose designated bytes are the appended [3]; a
missing name "c" ([99]) gives entry-not-found and a false `has`. -/
theorem c6_witness :
    StpArchiveOpenEntry
        (StpBuilderFinalize
          { entries := some [{ name := [97], data := [1, 2] },
                             { name := [98], data := [3] }]
            capacity := 2, enable_crc := false }).1 [98]
      = .ok { entry_name := [98], origin := 2, size := 1 }
    ∧ StpArchiveOpenEntry
        (StpBuilderFinalize
          { entries := some [{ name := [97], data := [1, 2] },
                             { name := [98], data := [3] }]
            capacity := 2, enable_crc := false }).1 [99]
      = .error .entryNotFound := by
  constructor
  · have h := (c6_open_returns_appended_bytes
      [{ name := [97], data := [1, 2] }, { name := [98], data := [3] }]
      2 false [98] (by decide)).1 1 (by decide) (by decide)
      (fun j hj => by
        have hj0 : j = 0 := by omega
        subst hj0
        decide)
    exact h.1
  · have h := (c6_open_returns_appended_bytes
      [{ name := [97], data := [1, 2] }, { name := [98], data := [3] }]
      2 false [99] (by decide)).2
      (by intro p hp; fin_cases hp <;> decide)
    exact h.1

end Stockpile
